import Mathlib

/-!
Verification of the `Channel` per-metric aggregation core
(`src/metrics/src/channel/mod.rs`).

The embedding below translates the Rust source into Lean:

* `u64` arithmetic is `ℕ` with explicit `% 2 ^ 64` at the operations that
  wrap in Rust (`wrapping_sub`, atomic `fetch_add`).
* the `f64` rate computation is modelled exactly: `F64` carries a 53-bit
  mantissa and a binary exponent, `roundMantissa` performs IEEE-754
  round-to-nearest-even, and the division/multiplication/`as u64` cast
  follow the source expression shapes.  All values arising here are
  non-negative and in the normal range of `f64`, so the model needs no
  sign bit and no subnormal handling.
* Rust's checked `-` on `u64` (which is an overflow error when the
  subtrahend is larger) is modelled by returning `none`; the deliberate
  `wrapping_sub` calls in the source are modelled by `wsub`.
* the external histogram and the `Summary` builder are not part of the
  sources under verification; they are modelled from the spec where noted.
-/

namespace Metrics

/-- Modulus of `u64` arithmetic. -/
def U64MOD : ℕ := 2 ^ 64

/-- Rust `u64::wrapping_sub`. -/
def wsub (a b : ℕ) : ℕ := (a % U64MOD + (U64MOD - b % U64MOD)) % U64MOD

/-- Rust wrapping `u64` addition (atomic `fetch_add` wraps on overflow). -/
def wadd (a b : ℕ) : ℕ := (a + b) % U64MOD

/-- Number of bits of `n` (0 for 0), with structural fuel so that the kernel
can evaluate it. All inputs in this development are below `2 ^ 256`. -/
def bitlenAux : ℕ → ℕ → ℕ
  | 0, _ => 0
  | fuel + 1, n => if n = 0 then 0 else bitlenAux fuel (n / 2) + 1

/-- Bit length of a natural number. -/
def bitlen (n : ℕ) : ℕ := bitlenAux 256 n

/-- IEEE-754 binary64 round-to-nearest-even of the positive rational `a / b`
(`a, b > 0`): returns `(m, e)` with `2 ^ 52 ≤ m ≤ 2 ^ 53` and
`m * 2 ^ e` the correctly rounded value.  The quotient is computed with two
guard bits plus a sticky remainder, which suffices for correct rounding. -/
def roundMantissa (a b : ℕ) : ℕ × ℤ :=
  let la := bitlen a
  let lb := bitlen b
  let t : ℤ := 55 + lb - la
  let A := a * 2 ^ t.toNat
  let B := b * 2 ^ (-t).toNat
  let q := A / B
  let r := A % B
  let k := bitlen q - 53
  let low := q % 2 ^ k
  let high := q / 2 ^ k
  let half := 2 ^ (k - 1)
  let m := if half < low ∨ (low = half ∧ (r ≠ 0 ∨ high % 2 = 1)) then high + 1 else high
  (m, (k : ℤ) - t)

/-- Non-negative `f64` values as reachable in the rate computations:
NaN, +infinity, or a finite dyadic `m * 2 ^ e`. -/
inductive F64
  | nan
  | inf
  | fin (m : ℕ) (e : ℤ)
deriving DecidableEq, Repr

/-- Rust `u64 as f64` conversion (round to nearest, exact below `2 ^ 53`). -/
def toF64 (n : ℕ) : F64 :=
  if n = 0 then F64.fin 0 0
  else
    let p := roundMantissa n 1
    F64.fin p.1 p.2

/-- IEEE `f64` division for the non-negative fragment: `0/0` and `inf/inf`
are NaN, `x/0` for `x > 0` is `+inf`, finite quotients are rounded to
nearest-even.  Power-of-two scaling is exact, so the exponents add up. -/
def F64.div : F64 → F64 → F64
  | nan, _ => nan
  | _, nan => nan
  | inf, inf => nan
  | inf, fin _ _ => inf
  | fin _ _, inf => fin 0 0
  | fin m1 e1, fin m2 e2 =>
    if m2 = 0 then (if m1 = 0 then nan else inf)
    else if m1 = 0 then fin 0 0
    else
      let p := roundMantissa m1 m2
      fin p.1 (p.2 + e1 - e2)

/-- IEEE `f64` multiplication for the non-negative fragment:
`inf * 0` is NaN, finite products are rounded to nearest-even. -/
def F64.mul : F64 → F64 → F64
  | nan, _ => nan
  | _, nan => nan
  | inf, inf => inf
  | inf, fin m _ => if m = 0 then nan else inf
  | fin m _, inf => if m = 0 then nan else inf
  | fin m1 e1, fin m2 e2 =>
    if m1 = 0 ∨ m2 = 0 then fin 0 0
    else
      let p := roundMantissa (m1 * m2) 1
      fin p.1 (p.2 + e1 + e2)

/-- Rust `f64 as u64` cast: truncates toward zero and saturates —
NaN goes to 0, values at or above `u64::MAX` go to `u64::MAX`. -/
def F64.toU64 : F64 → ℕ
  | nan => 0
  | inf => U64MOD - 1
  | fin m e => min (if 0 ≤ e then m * 2 ^ e.toNat else m / 2 ^ (-e).toNat) (U64MOD - 1)

/-- Rate computed by `record_counter`:
`((delta_value as f64 / delta_time as f64) * 1_000_000_000.0) as u64`. -/
def rateCounter (delta_value delta_time : ℕ) : ℕ :=
  (((toF64 delta_value).div (toF64 delta_time)).mul (toF64 1000000000)).toU64

/-- Rate computed by `record_delta`:
`(value as f64 * (1_000_000_000.0 / delta_time as f64)) as u64`. -/
def rateDelta (value delta_time : ℕ) : ℕ :=
  ((toF64 value).mul ((toF64 1000000000).div (toF64 delta_time))).toU64

/-- Measurement kinds (`Source` in the crate). -/
inductive Source
  | Counter
  | Gauge
  | Distribution
  | TimeInterval
deriving DecidableEq, Repr

/-- Extremum tracker `Point`: a value/time pair; `Point::new(value, time)`. -/
structure Point where
  value : ℕ
  time : ℕ
deriving DecidableEq, Repr

/-- Modelled from the spec: the external histogram collaborator (its source is
not under `src/`).  It accepts `increment(value, weight)`, `percentile(p)`
and `clear()`; we keep the multiset of weighted samples as a list. -/
structure Histogram where
  samples : List (ℕ × ℕ)
deriving DecidableEq, Repr

/-- Histogram `increment(value, weight)`: record a weighted sample. -/
def Histogram.increment (h : Histogram) (value weight : ℕ) : Histogram :=
  ⟨h.samples ++ [(value, weight)]⟩

/-- Histogram `clear()`: drop all samples. -/
def Histogram.clear (_ : Histogram) : Histogram := ⟨[]⟩

/-- Total recorded weight of a histogram. -/
def Histogram.totalWeight (h : Histogram) : ℕ := (h.samples.map Prod.snd).sum

/-- Insertion of a weighted sample into a value-sorted list. -/
def insertByValue (x : ℕ × ℕ) : List (ℕ × ℕ) → List (ℕ × ℕ)
  | [] => [x]
  | y :: ys => if x.1 ≤ y.1 then x :: y :: ys else y :: insertByValue x ys

/-- Insertion sort of weighted samples by value. -/
def sortByValue : List (ℕ × ℕ) → List (ℕ × ℕ)
  | [] => []
  | x :: xs => insertByValue x (sortByValue xs)

/-- Nearest-rank walk: first value whose cumulative weight share reaches
`p` percent of `tot` (falling back to the largest value). -/
def percentileWalk (p : ℚ) (tot : ℕ) : List (ℕ × ℕ) → ℕ → ℕ
  | [], _ => 0
  | (v, w) :: rest, acc =>
    if rest = [] ∨ p * tot ≤ ((acc + w) * 100 : ℕ) then v
    else percentileWalk p tot rest (acc + w)

/-- Modelled from the spec: `percentile(p)` on the external histogram fails
exactly when the histogram holds no samples, and otherwise returns the
nearest-rank percentile of the weighted samples. -/
def Histogram.percentile (h : Histogram) (p : ℚ) : Except Unit ℕ :=
  if h.totalWeight = 0 then Except.error ()
  else Except.ok (percentileWalk p h.totalWeight (sortByValue h.samples) 0)

/-- Decidable equality for `Except`, so that percentile results can be
compared by `decide`. -/
instance {ε α : Type} [DecidableEq ε] [DecidableEq α] : DecidableEq (Except ε α) := by
  intro a b
  cases a <;> cases b
  case error.error e1 e2 =>
    exact if h : e1 = e2 then isTrue (by rw [h]) else isFalse (fun hh => by cases hh; exact h rfl)
  case error.ok e1 a2 => exact isFalse (fun hh => by cases hh)
  case ok.error a1 e2 => exact isFalse (fun hh => by cases hh)
  case ok.ok a1 a2 =>
    exact if h : a1 = a2 then isTrue (by rw [h]) else isFalse (fun hh => by cases hh; exact h rfl)

/-- Error results of `percentile` (`MetricsError`). -/
inductive MetricsError
  | EmptyChannel
  | NoSummary
deriving DecidableEq, Repr

/-- Export requests (`Output`): current value, extremum timestamps, or a
percentile at `p` (the `Percentile` wrapper's `as_f64()` value). -/
inductive Output
  | Reading
  | MaxPointTime
  | MinPointTime
  | Percentile (p : ℚ)
deriving DecidableEq, Repr

/-- Emitted record (`Reading::new(name, output, value)`). -/
structure Reading where
  name : String
  output : Output
  value : ℕ
deriving DecidableEq, Repr

/-- Owned snapshot of a metric's identity (`ChannelStatistic`). -/
structure ChannelStatistic where
  name : String
  description : Option String
  source : Source
  unit : Option String
deriving DecidableEq, Repr

/-- The per-metric aggregation state (`Channel`).  The atomic cells
(`AtomicU64`, `AtomicBool`) become plain fields; the `outputs` hash set
becomes a duplicate-free list. -/
structure Channel where
  statistic : ChannelStatistic
  source : Source
  reading : ℕ
  histogram : Option Histogram
  last_write : ℕ
  latched : Bool
  max : Point
  min : Point
  outputs : List Output
  has_data : Bool
deriving DecidableEq, Repr

/-- Channel::new.  `last_write` is stamped with the wall clock
(`time::precise_time_ns()`), passed here as `now`.  The histogram is built
from the optional `Summary`; the builder is not under `src/`, so it is
modelled from the spec: a supplied summary yields an empty histogram. -/
def Channel.new (statistic : ChannelStatistic) (summary : Bool) (now : ℕ) : Channel :=
  { statistic := statistic
    source := statistic.source
    reading := 0
    histogram := if summary then some ⟨[]⟩ else none
    last_write := now
    latched := true
    max := ⟨0, 0⟩
    min := ⟨0, 0⟩
    outputs := []
    has_data := false }

/-- Channel::record_counter: gated on `Source::Counter`; first sample stores
the baseline, later samples add the wrapped delta to the reading, feed the
rate into the histogram and update both extremum trackers. -/
def Channel.record_counter (ch : Channel) (time value : ℕ) : Channel :=
  if ch.source = Source.Counter then
    if ch.has_data then
      let delta_value := wsub value ch.reading
      let delta_time := wsub time ch.last_write
      let rate := rateCounter delta_value delta_time
      let max' := if ch.max.time > 0 then
          (if rate > ch.max.value then Point.mk rate time else ch.max)
        else Point.mk rate time
      let min' := if ch.min.time > 0 then
          (if rate < ch.min.value then Point.mk rate time else ch.min)
        else Point.mk rate time
      { ch with
        reading := wadd ch.reading delta_value
        histogram := ch.histogram.map (fun h => h.increment rate 1)
        max := max'
        min := min'
        last_write := time }
    else
      { ch with reading := value, has_data := true, last_write := time }
  else ch

/-- Channel::record_delta: gated on `Source::Counter`.  The elapsed time is
computed with Rust's plain `-` on `u64` (`time - last_write`), which is an
overflow error when `time < last_write`; that failure is modelled as
`none`. -/
def Channel.record_delta (ch : Channel) (time value : ℕ) : Option Channel :=
  if ch.source = Source.Counter then
    if ch.has_data then
      if time % U64MOD < ch.last_write % U64MOD then none
      else
        let delta_time := time % U64MOD - ch.last_write % U64MOD
        let rate := rateDelta value delta_time
        let max' := if ch.max.time > 0 then
            (if rate > ch.max.value then Point.mk rate time else ch.max)
          else Point.mk rate time
        let min' := if ch.min.time > 0 then
            (if rate < ch.min.value then Point.mk rate time else ch.min)
          else Point.mk rate time
        some { ch with
          reading := wadd ch.reading value
          histogram := ch.histogram.map (fun h => h.increment rate 1)
          max := max'
          min := min'
          last_write := time }
    else
      some { ch with reading := value, has_data := true, last_write := time }
  else some ch

/-- Channel::record_distribution: gated on `Source::Distribution`; adds
`count` to the reading and the weighted sample to the histogram. -/
def Channel.record_distribution (ch : Channel) (time value count : ℕ) : Channel :=
  if ch.source = Source.Distribution then
    { ch with
      reading := wadd ch.reading count
      histogram := ch.histogram.map (fun h => h.increment value count)
      last_write := time }
  else ch

/-- Channel::record_gauge: gated on `Source::Gauge`; overwrites the reading,
feeds the raw value to the histogram and updates both extremum trackers
with the raw value. -/
def Channel.record_gauge (ch : Channel) (time value : ℕ) : Channel :=
  if ch.source = Source.Gauge then
    let max' := if ch.max.time > 0 then
        (if value > ch.max.value then Point.mk value time else ch.max)
      else Point.mk value time
    let min' := if ch.min.time > 0 then
        (if value < ch.min.value then Point.mk value time else ch.min)
      else Point.mk value time
    { ch with
      reading := value
      histogram := ch.histogram.map (fun h => h.increment value 1)
      max := max'
      min := min'
      last_write := time }
  else ch

/-- Channel::record_increment: gated on `Source::Counter`; adds `count` to
the reading and the magnitude to the histogram. -/
def Channel.record_increment (ch : Channel) (time count : ℕ) : Channel :=
  if ch.source = Source.Counter then
    { ch with
      reading := wadd ch.reading count
      histogram := ch.histogram.map (fun h => h.increment count 1)
      last_write := time }
  else ch

/-- Channel::record_time_interval: gated on `Source::TimeInterval`; counts
the event, feeds the wrapped duration to the histogram and updates the
extremum trackers keyed by `start`.  Note: it does not touch `last_write`. -/
def Channel.record_time_interval (ch : Channel) (start stop : ℕ) : Channel :=
  if ch.source = Source.TimeInterval then
    let duration := wsub stop start
    let max' := if ch.max.time > 0 then
        (if duration > ch.max.value then Point.mk duration start else ch.max)
      else Point.mk duration start
    let min' := if ch.min.time > 0 then
        (if duration < ch.min.value then Point.mk duration start else ch.min)
      else Point.mk duration start
    { ch with
      reading := wadd ch.reading 1
      histogram := ch.histogram.map (fun h => h.increment duration 1)
      max := max'
      min := min' }
  else ch

/-- Channel::percentile: `NoSummary` without a histogram, and the
histogram's own failure is mapped to `EmptyChannel`. -/
def Channel.percentile (ch : Channel) (p : ℚ) : Except MetricsError ℕ :=
  match ch.histogram with
  | some h =>
    match h.percentile p with
    | Except.ok v => Except.ok v
    | Except.error _ => Except.error MetricsError.EmptyChannel
  | none => Except.error MetricsError.NoSummary

/-- Channel::add_output: hash-set insert. -/
def Channel.add_output (ch : Channel) (o : Output) : Channel :=
  { ch with outputs := if o ∈ ch.outputs then ch.outputs else ch.outputs ++ [o] }

/-- Channel::delete_output: hash-set remove. -/
def Channel.delete_output (ch : Channel) (o : Output) : Channel :=
  { ch with outputs := ch.outputs.filter (fun x => x ≠ o) }

/-- Channel::latch: clears the histogram only when the channel is latched,
then unconditionally resets both extremum trackers. -/
def Channel.latch (ch : Channel) : Channel :=
  { ch with
    histogram := if ch.latched then ch.histogram.map Histogram.clear else ch.histogram
    max := ⟨0, 0⟩
    min := ⟨0, 0⟩ }

/-- Channel::zero: full reset; `last_write` is stamped with the wall clock
(`time::precise_time_ns()`), passed here as `now`. -/
def Channel.zero (ch : Channel) (now : ℕ) : Channel :=
  { ch with
    has_data := false
    last_write := now
    reading := 0
    histogram := ch.histogram.map Histogram.clear
    max := ⟨0, 0⟩
    min := ⟨0, 0⟩ }

/-- Channel::readings: one pass over the registered outputs; extremum
timestamps are guarded by `max.time() > 0` (for both arms, as in the
source), failed percentiles are omitted. -/
def Channel.readings (ch : Channel) : List Reading :=
  ch.outputs.filterMap (fun o =>
    match o with
    | Output.Reading => some ⟨ch.statistic.name, o, ch.reading⟩
    | Output.MaxPointTime =>
      if ch.max.time > 0 then some ⟨ch.statistic.name, o, ch.max.time⟩ else none
    | Output.MinPointTime =>
      if ch.max.time > 0 then some ⟨ch.statistic.name, o, ch.min.time⟩ else none
    | Output.Percentile p =>
      match ch.percentile p with
      | Except.ok v => some ⟨ch.statistic.name, o, v⟩
      | Except.error _ => none)

/-- Channel::hash_map: same computation as `readings`, keyed by output.
The output set is duplicate-free, so an association list is faithful. -/
def Channel.hash_map (ch : Channel) : List (Output × ℕ) :=
  ch.outputs.filterMap (fun o =>
    match o with
    | Output.Reading => some (o, ch.reading)
    | Output.MaxPointTime =>
      if ch.max.time > 0 then some (o, ch.max.time) else none
    | Output.MinPointTime =>
      if ch.max.time > 0 then some (o, ch.min.time) else none
    | Output.Percentile p =>
      match ch.percentile p with
      | Except.ok v => some (o, v)
      | Except.error _ => none)

/-- One public operation on a channel, for stating lifetime invariants. -/
inductive Op
  | recordCounter (time value : ℕ)
  | recordDelta (time value : ℕ)
  | recordDistribution (time value count : ℕ)
  | recordGauge (time value : ℕ)
  | recordIncrement (time count : ℕ)
  | recordTimeInterval (start stop : ℕ)
  | latch
  | zero (now : ℕ)
  | addOutput (o : Output)
  | deleteOutput (o : Output)
deriving DecidableEq, Repr

/-- Apply one operation; `none` when the operation panics
(`record_delta`'s unchecked subtraction). -/
def step (ch : Channel) : Op → Option Channel
  | Op.recordCounter t v => some (ch.record_counter t v)
  | Op.recordDelta t v => ch.record_delta t v
  | Op.recordDistribution t v c => some (ch.record_distribution t v c)
  | Op.recordGauge t v => some (ch.record_gauge t v)
  | Op.recordIncrement t c => some (ch.record_increment t c)
  | Op.recordTimeInterval a b => some (ch.record_time_interval a b)
  | Op.latch => some ch.latch
  | Op.zero now => some (ch.zero now)
  | Op.addOutput o => some (ch.add_output o)
  | Op.deleteOutput o => some (ch.delete_output o)

/-- Run a sequence of operations from a starting channel. -/
def run (ch : Channel) : List Op → Option Channel
  | [] => some ch
  | op :: ops => (step ch op).bind (fun ch2 => run ch2 ops)

end Metrics

namespace Metrics

set_option maxRecDepth 4096 in
/-- Sanity check value for the float model: the end-to-end scenario's rate. -/
theorem rateCounter_concrete : rateCounter 200 1000000000 = 200 := by decide

/-- Concrete Counter statistic used by witnesses. -/
def counterStat : ChannelStatistic := ⟨"requests", none, Source.Counter, none⟩

/-- Concrete Gauge statistic used by witnesses. -/
def gaugeStat : ChannelStatistic := ⟨"cpu", none, Source.Gauge, none⟩

/-- Concrete Distribution statistic used by witnesses. -/
def distStat : ChannelStatistic := ⟨"latency", none, Source.Distribution, none⟩

/-- Fields that no recording call touches: `record_counter` preserves the
latched flag, the source, the statistic and histogram presence. -/
theorem record_counter_frame (ch : Channel) (t v : ℕ) :
    (ch.record_counter t v).latched = ch.latched ∧ (ch.record_counter t v).source = ch.source
      ∧ ((ch.record_counter t v).histogram).isSome = ch.histogram.isSome
      ∧ (ch.record_counter t v).statistic = ch.statistic := by
  unfold Channel.record_counter
  split_ifs <;> simp

/-- Frame of `record_delta` on its non-panicking executions. -/
theorem record_delta_frame {ch ch2 : Channel} {t v : ℕ} (h : ch.record_delta t v = some ch2) :
    ch2.latched = ch.latched ∧ ch2.source = ch.source
      ∧ ch2.histogram.isSome = ch.histogram.isSome ∧ ch2.statistic = ch.statistic := by
  unfold Channel.record_delta at h
  split_ifs at h <;> simp_all <;> subst h <;> simp

/-- Frame of `record_distribution`. -/
theorem record_distribution_frame (ch : Channel) (t v c : ℕ) :
    (ch.record_distribution t v c).latched = ch.latched
      ∧ (ch.record_distribution t v c).source = ch.source
      ∧ ((ch.record_distribution t v c).histogram).isSome = ch.histogram.isSome
      ∧ (ch.record_distribution t v c).statistic = ch.statistic := by
  unfold Channel.record_distribution
  split_ifs <;> simp

/-- Frame of `record_gauge`. -/
theorem record_gauge_frame (ch : Channel) (t v : ℕ) :
    (ch.record_gauge t v).latched = ch.latched ∧ (ch.record_gauge t v).source = ch.source
      ∧ ((ch.record_gauge t v).histogram).isSome = ch.histogram.isSome
      ∧ (ch.record_gauge t v).statistic = ch.statistic := by
  unfold Channel.record_gauge
  split_ifs <;> simp

/-- Frame of `record_increment`. -/
theorem record_increment_frame (ch : Channel) (t c : ℕ) :
    (ch.record_increment t c).latched = ch.latched ∧ (ch.record_increment t c).source = ch.source
      ∧ ((ch.record_increment t c).histogram).isSome = ch.histogram.isSome
      ∧ (ch.record_increment t c).statistic = ch.statistic := by
  unfold Channel.record_increment
  split_ifs <;> simp

/-- Frame of `record_time_interval`. -/
theorem record_time_interval_frame (ch : Channel) (a b : ℕ) :
    (ch.record_time_interval a b).latched = ch.latched
      ∧ (ch.record_time_interval a b).source = ch.source
      ∧ ((ch.record_time_interval a b).histogram).isSome = ch.histogram.isSome
      ∧ (ch.record_time_interval a b).statistic = ch.statistic := by
  unfold Channel.record_time_interval
  split_ifs <;> simp

/-- Every operation preserves the latched flag, the source, the statistic
and histogram presence. -/
theorem step_frame {ch ch2 : Channel} {op : Op} (h : step ch op = some ch2) :
    ch2.latched = ch.latched ∧ ch2.source = ch.source
      ∧ ch2.histogram.isSome = ch.histogram.isSome ∧ ch2.statistic = ch.statistic := by
  cases op with
  | recordCounter t v =>
    simp only [step, Option.some.injEq] at h
    subst h
    exact record_counter_frame ch t v
  | recordDelta t v =>
    exact record_delta_frame h
  | recordDistribution t v c =>
    simp only [step, Option.some.injEq] at h
    subst h
    exact record_distribution_frame ch t v c
  | recordGauge t v =>
    simp only [step, Option.some.injEq] at h
    subst h
    exact record_gauge_frame ch t v
  | recordIncrement t c =>
    simp only [step, Option.some.injEq] at h
    subst h
    exact record_increment_frame ch t c
  | recordTimeInterval a b =>
    simp only [step, Option.some.injEq] at h
    subst h
    exact record_time_interval_frame ch a b
  | latch =>
    simp only [step, Option.some.injEq] at h
    subst h
    unfold Channel.latch
    split_ifs <;> simp
  | zero now =>
    simp only [step, Option.some.injEq] at h
    subst h
    simp [Channel.zero]
  | addOutput o =>
    simp only [step, Option.some.injEq] at h
    subst h
    simp [Channel.add_output]
  | deleteOutput o =>
    simp only [step, Option.some.injEq] at h
    subst h
    simp [Channel.delete_output]

/-- Any operation sequence preserves the latched flag, the source, the
statistic and histogram presence. -/
theorem run_frame :
    ∀ (ops : List Op) (ch ch' : Channel), run ch ops = some ch' →
      ch'.latched = ch.latched ∧ ch'.source = ch.source
        ∧ ch'.histogram.isSome = ch.histogram.isSome ∧ ch'.statistic = ch.statistic := by
  intro ops
  induction ops with
  | nil =>
    intro ch ch' h
    simp only [run, Option.some.injEq] at h
    subst h
    exact ⟨rfl, rfl, rfl, rfl⟩
  | cons op ops ih =>
    intro ch ch' h
    simp only [run, Option.bind_eq_bind, Option.bind_eq_some] at h
    obtain ⟨ch2, h1, h2⟩ := h
    obtain ⟨e1, e2, e3, e4⟩ := step_frame h1
    obtain ⟨f1, f2, f3, f4⟩ := ih ch2 ch' h2
    exact ⟨f1.trans e1, f2.trans e2, f3.trans e3, f4.trans e4⟩

/-- C1 (kind gating): a `record_*` call whose expected kind differs from the
Channel's configured kind is a silent no-op — the entire channel state
(reading, histogram, extrema, last-write, has-data flag) is unchanged, and
the mismatched call never fails. -/
theorem c1_kind_gating (ch : Channel) (t v c a b : ℕ) :
    (ch.source ≠ Source.Counter →
      ch.record_counter t v = ch ∧ ch.record_delta t v = some ch ∧ ch.record_increment t c = ch)
  ∧ (ch.source ≠ Source.Gauge → ch.record_gauge t v = ch)
  ∧ (ch.source ≠ Source.Distribution → ch.record_distribution t v c = ch)
  ∧ (ch.source ≠ Source.TimeInterval → ch.record_time_interval a b = ch) := by
  refine ⟨fun h => ⟨?_, ?_, ?_⟩, fun h => ?_, fun h => ?_, fun h => ?_⟩ <;>
    simp [Channel.record_counter, Channel.record_delta, Channel.record_increment,
      Channel.record_gauge, Channel.record_distribution, Channel.record_time_interval, h]

/-- C1 witness: on a Gauge channel, counter-family calls are no-ops. -/
theorem c1_kind_gating_witness :
    (Channel.new gaugeStat true 0).source ≠ Source.Counter
      ∧ (Channel.new gaugeStat true 0).record_counter 3 4 = Channel.new gaugeStat true 0
      ∧ (Channel.new gaugeStat true 0).record_delta 3 4 = some (Channel.new gaugeStat true 0) := by
  have h := (c1_kind_gating (Channel.new gaugeStat true 0) 3 4 1 2 5).1 (by decide)
  exact ⟨by decide, h.1, h.2.1⟩

/-- C5 (latch vs. zero): on a latched Channel, `latch` clears the histogram
content (when one exists) and resets both extrema, leaving reading,
has-data and last-write untouched; `zero` resets reading and has-data,
stamps last-write with the wall clock, and clears the histogram
unconditionally. -/
theorem c5_latch_vs_zero (ch : Channel) (now : ℕ) :
    (ch.latched = true →
      ch.latch.histogram = ch.histogram.map Histogram.clear
        ∧ ch.latch.max = Point.mk 0 0 ∧ ch.latch.min = Point.mk 0 0
        ∧ ch.latch.reading = ch.reading ∧ ch.latch.has_data = ch.has_data
        ∧ ch.latch.last_write = ch.last_write)
  ∧ ((ch.zero now).reading = 0 ∧ (ch.zero now).has_data = false
      ∧ (ch.zero now).last_write = now
      ∧ (ch.zero now).histogram = ch.histogram.map Histogram.clear
      ∧ (ch.zero now).max = Point.mk 0 0 ∧ (ch.zero now).min = Point.mk 0 0) := by
  constructor
  · intro h
    simp [Channel.latch, h]
  · simp [Channel.zero]

/-- C5 witness: latch and zero on a concrete latched histogram channel. -/
theorem c5_latch_vs_zero_witness :
    ((Channel.new distStat true 3).record_distribution 5 42 1).latched = true
      ∧ ((Channel.new distStat true 3).record_distribution 5 42 1).latch.histogram
          = (((Channel.new distStat true 3).record_distribution 5 42 1).histogram).map Histogram.clear
      ∧ (((Channel.new distStat true 3).record_distribution 5 42 1).zero 9).reading = 0 := by
  have h := c5_latch_vs_zero ((Channel.new distStat true 3).record_distribution 5 42 1) 9
  exact ⟨by decide, (h.1 (by decide)).1, h.2.1⟩

/-- C10 (always latched): every Channel reachable from the public
constructor keeps `latched = true`, so `latch` clears the histogram
content (when a histogram exists) on every reachable Channel. -/
theorem c10_always_latched (stat : ChannelStatistic) (hh : Bool) (now : ℕ)
    (ops : List Op) (ch' : Channel)
    (hrun : run (Channel.new stat hh now) ops = some ch') :
    ch'.latched = true ∧ ch'.latch.histogram = ch'.histogram.map Histogram.clear := by
  have h := (run_frame ops (Channel.new stat hh now) ch' hrun).1
  have hl : ch'.latched = true := h
  exact ⟨hl, by simp [Channel.latch, hl]⟩

/-- C10 witness: a concrete reachable channel is latched and its latch
clears the histogram. -/
theorem c10_always_latched_witness :
    run (Channel.new counterStat true 0) [Op.recordCounter 1 2, Op.latch]
        = some (((Channel.new counterStat true 0).record_counter 1 2).latch)
      ∧ (((Channel.new counterStat true 0).record_counter 1 2).latch).latched = true := by
  refine ⟨by decide, ?_⟩
  exact (c10_always_latched counterStat true 0 [Op.recordCounter 1 2, Op.latch]
    (((Channel.new counterStat true 0).record_counter 1 2).latch) (by decide)).1

/-- C2 (counter bootstrap): on a fresh Counter Channel the first
`record_counter` stores the value as baseline, sets has-data and
last-write, and touches neither histogram nor extrema; on a Channel with a
prior sample the next call adds exactly one histogram sample at the
computed rate and adds the wrapped delta to the reading.  Concretely,
`record_counter(1e9, 100)` then `record_counter(2e9, 300)` on a
histogram-backed Counter Channel gives reading 300, one histogram sample
at rate 200, and both extrema equal to `(value 200, time 2e9)`. -/
theorem c2_counter_bootstrap (stat : ChannelStatistic) (hh : Bool) (now t v t2 v2 : ℕ)
    (hsrc : stat.source = Source.Counter) :
    ((Channel.new stat hh now).record_counter t v
        = { Channel.new stat hh now with reading := v, has_data := true, last_write := t })
  ∧ (∀ ch : Channel, ch.source = Source.Counter → ch.has_data = true →
      (ch.record_counter t2 v2).reading = wadd ch.reading (wsub v2 ch.reading)
        ∧ (ch.record_counter t2 v2).histogram = ch.histogram.map
            (fun h => h.increment (rateCounter (wsub v2 ch.reading) (wsub t2 ch.last_write)) 1))
  ∧ (((Channel.new stat true now).record_counter 1000000000 100).record_counter 2000000000 300
        = { Channel.new stat true now with
            reading := 300
            histogram := some ⟨[(200, 1)]⟩
            has_data := true
            max := ⟨200, 2000000000⟩
            min := ⟨200, 2000000000⟩
            last_write := 2000000000 }) := by
  refine ⟨?_, ?_, ?_⟩
  · simp [Channel.new, Channel.record_counter, hsrc]
  · intro ch hsrc2 hdata
    constructor <;> simp [Channel.record_counter, hsrc2, hdata]
  · have hdv : wsub 300 100 = 200 := by decide
    have hdt : wsub 2000000000 1000000000 = 1000000000 := by decide
    have hadd : wadd 100 200 = 300 := by decide
    simp [Channel.new, Channel.record_counter, hsrc, hdv, hdt, hadd,
      rateCounter_concrete, Histogram.increment]

/-- C2 witness: the end-to-end scenario on a concrete Counter statistic. -/
theorem c2_counter_bootstrap_witness :
    counterStat.source = Source.Counter
      ∧ ((Channel.new counterStat true 0).record_counter 1000000000 100).record_counter
            2000000000 300
          = { Channel.new counterStat true 0 with
              reading := 300
              histogram := some ⟨[(200, 1)]⟩
              has_data := true
              max := ⟨200, 2000000000⟩
              min := ⟨200, 2000000000⟩
              last_write := 2000000000 } :=
  ⟨by decide, (c2_counter_bootstrap counterStat true 0 1000000000 100 2000000000 300 rfl).2.2⟩

/-- Channel used to exhibit the `record_delta` overflow: a Counter channel
that already holds a sample, with `last_write = 10`. -/
def c3ch : Channel := (Channel.new counterStat true 0).record_counter 10 5

set_option maxRecDepth 8192 in
/-- C3 (wraparound): the claim's `record_counter` half is real — both of its
deltas use `wrapping_sub`, so a value below the previous reading (or a
time below the previous last-write) wraps and the call completes.  Its
`record_delta` half contradicts the code: `record_delta` computes the
elapsed time with Rust's unchecked `u64` subtraction `time - last_write`,
which is an overflow error when `time < last_write`; evaluated at the
failing input, the embedded `record_delta` aborts (`none`) instead of
completing. -/
theorem c3_wraparound_failing_input :
    c3ch.has_data = true ∧ c3ch.last_write = 10
      ∧ (c3ch.record_counter 12 3).reading = wadd 5 (wsub 3 5)
      ∧ (c3ch.record_counter 8 7).last_write = 8
      ∧ c3ch.record_delta 4 1 = none := by
  refine ⟨by decide, by decide, by decide, by decide, by decide⟩

/-- The extremum-qualifying sample of an operation on a channel, when the
operation qualifies: the computed rate (counter/delta), the raw value
(gauge) or the duration (time interval), with its associated timestamp. -/
def extremumSample (ch : Channel) : Op → Option (ℕ × ℕ)
  | Op.recordCounter t v =>
    if ch.source = Source.Counter ∧ ch.has_data = true then
      some (rateCounter (wsub v ch.reading) (wsub t ch.last_write), t)
    else none
  | Op.recordDelta t v =>
    if ch.source = Source.Counter ∧ ch.has_data = true then
      some (rateDelta v (t % U64MOD - ch.last_write % U64MOD), t)
    else none
  | Op.recordGauge t v => if ch.source = Source.Gauge then some (v, t) else none
  | Op.recordTimeInterval a b =>
    if ch.source = Source.TimeInterval then some (wsub b a, a) else none
  | _ => none

/-- C4 (extremum first-write-wins): under every qualifying recording — rate
for counter/delta, raw value for gauge, duration for time interval — the
max tracker is overwritten unconditionally while its time is 0, and
afterwards replaced exactly when the new sample is strictly greater; the
min tracker symmetrically, replaced exactly when strictly smaller. -/
theorem c4_extremum_rule (ch ch2 : Channel) (op : Op) (s τ : ℕ)
    (h1 : step ch op = some ch2) (h2 : extremumSample ch op = some (s, τ)) :
    ch2.max = (if ch.max.time > 0 then
        (if s > ch.max.value then Point.mk s τ else ch.max) else Point.mk s τ)
  ∧ ch2.min = (if ch.min.time > 0 then
        (if s < ch.min.value then Point.mk s τ else ch.min) else Point.mk s τ) := by
  cases op with
  | recordCounter t v =>
    simp only [extremumSample] at h2
    split_ifs at h2 with hq
    obtain ⟨hsrc, hdata⟩ := hq
    simp only [Option.some.injEq, Prod.mk.injEq] at h2
    obtain ⟨hs, ht⟩ := h2
    simp only [step, Option.some.injEq] at h1
    subst h1
    subst hs
    subst ht
    simp [Channel.record_counter, hsrc, hdata]
  | recordDelta t v =>
    simp only [extremumSample] at h2
    split_ifs at h2 with hq
    obtain ⟨hsrc, hdata⟩ := hq
    simp only [Option.some.injEq, Prod.mk.injEq] at h2
    obtain ⟨hs, ht⟩ := h2
    simp only [step] at h1
    unfold Channel.record_delta at h1
    rw [if_pos hsrc, if_pos hdata] at h1
    by_cases hlt : t % U64MOD < ch.last_write % U64MOD
    · rw [if_pos hlt] at h1
      simp at h1
    · rw [if_neg hlt] at h1
      simp only [Option.some.injEq] at h1
      subst h1
      subst hs
      subst ht
      simp
  | recordGauge t v =>
    simp only [extremumSample] at h2
    split_ifs at h2 with hq
    simp only [Option.some.injEq, Prod.mk.injEq] at h2
    obtain ⟨hs, ht⟩ := h2
    simp only [step, Option.some.injEq] at h1
    subst h1
    subst hs
    subst ht
    simp [Channel.record_gauge, hq]
  | recordTimeInterval a b =>
    simp only [extremumSample] at h2
    split_ifs at h2 with hq
    simp only [Option.some.injEq, Prod.mk.injEq] at h2
    obtain ⟨hs, ht⟩ := h2
    simp only [step, Option.some.injEq] at h1
    subst h1
    subst hs
    subst ht
    simp [Channel.record_time_interval, hq]
  | recordDistribution t v c => simp [extremumSample] at h2
  | recordIncrement t c => simp [extremumSample] at h2
  | latch => simp [extremumSample] at h2
  | zero now => simp [extremumSample] at h2
  | addOutput o => simp [extremumSample] at h2
  | deleteOutput o => simp [extremumSample] at h2

/-- C4 witness: the first qualifying gauge sample becomes both max and min. -/
theorem c4_extremum_rule_witness :
    ((Channel.new gaugeStat false 0).record_gauge 5 7).max
        = (if (Channel.new gaugeStat false 0).max.time > 0 then
            (if 7 > (Channel.new gaugeStat false 0).max.value then Point.mk 7 5
              else (Channel.new gaugeStat false 0).max) else Point.mk 7 5)
      ∧ ((Channel.new gaugeStat false 0).record_gauge 5 7).min
        = (if (Channel.new gaugeStat false 0).min.time > 0 then
            (if 7 < (Channel.new gaugeStat false 0).min.value then Point.mk 7 5
              else (Channel.new gaugeStat false 0).min) else Point.mk 7 5) :=
  c4_extremum_rule (Channel.new gaugeStat false 0)
    ((Channel.new gaugeStat false 0).record_gauge 5 7) (Op.recordGauge 5 7) 7 5
    (by decide) (by decide)

/-- C6 (percentile error modes): a Channel built without a histogram answers
`NoSummary` to every percentile request after every operation sequence (no
recording call can make it succeed); a Channel whose histogram holds no
samples answers `EmptyChannel`; and after one `record_distribution(t, 42, 1)`
on a histogram-backed Distribution Channel, `percentile(50)` succeeds with
42.  All failures are values of the result type, never exceptions. -/
theorem c6_percentile_errors (ops : List Op) (ch ch' : Channel) (p : ℚ)
    (stat : ChannelStatistic) (now t : ℕ)
    (hnone : ch.histogram = none) (hrun : run ch ops = some ch')
    (hsrc : stat.source = Source.Distribution) :
    ch'.percentile p = Except.error MetricsError.NoSummary
  ∧ (∀ c : Channel, c.histogram = some ⟨[]⟩ →
      c.percentile p = Except.error MetricsError.EmptyChannel)
  ∧ ((Channel.new stat true now).record_distribution t 42 1).percentile 50 = Except.ok 42 := by
  refine ⟨?_, ?_, ?_⟩
  · have h := (run_frame ops ch ch' hrun).2.2.1
    rw [hnone] at h
    have hnone' : ch'.histogram = none := by
      cases hh : ch'.histogram with
      | none => rfl
      | some hg => rw [hh] at h; simp at h
    simp [Channel.percentile, hnone']
  · intro c hc
    simp [Channel.percentile, hc, Histogram.percentile, Histogram.totalWeight]
  · simp [Channel.new, Channel.record_distribution, hsrc, Channel.percentile,
      Histogram.increment, Histogram.percentile, Histogram.totalWeight,
      sortByValue, insertByValue, percentileWalk]

/-- C6 witness: concrete channels for each error mode and for success. -/
theorem c6_percentile_errors_witness :
    ((Channel.new counterStat false 0).record_counter 1 2).percentile 50
        = Except.error MetricsError.NoSummary
      ∧ ((Channel.new distStat true 0).record_distribution 3 42 1).percentile 50
        = Except.ok 42 := by
  have h := c6_percentile_errors [Op.recordCounter 1 2] (Channel.new counterStat false 0)
    ((Channel.new counterStat false 0).record_counter 1 2) 50 distStat 0 3
    (by decide) (by decide) (by decide)
  exact ⟨h.1, h.2.2⟩

/-- Predicate singling out `record_increment` calls. -/
def Op.notIncrement : Op → Bool
  | Op.recordIncrement _ _ => false
  | _ => true

/-- Invariant of Counter channels under increment-free operation: when the
has-data flag is unset, the reading is 0 and both extrema are unset. -/
def CounterInv (ch : Channel) : Prop :=
  ch.source = Source.Counter
    ∧ (ch.has_data = false → ch.reading = 0 ∧ ch.max.time = 0 ∧ ch.min.time = 0)

/-- One increment-free operation preserves `CounterInv`. -/
theorem step_counterInv {ch ch2 : Channel} {op : Op}
    (hop : op.notIncrement = true) (hinv : CounterInv ch) (h : step ch op = some ch2) :
    CounterInv ch2 := by
  obtain ⟨hsrc, hflag⟩ := hinv
  cases op with
  | recordCounter t v =>
    simp only [step, Option.some.injEq] at h
    subst h
    refine ⟨(record_counter_frame ch t v).2.1.trans hsrc, fun hd => ?_⟩
    by_cases hb : ch.has_data = true
    · simp [Channel.record_counter, hsrc, hb] at hd
    · simp only [Bool.not_eq_true] at hb
      simp [Channel.record_counter, hsrc, hb] at hd
  | recordDelta t v =>
    simp only [step] at h
    unfold Channel.record_delta at h
    rw [if_pos hsrc] at h
    by_cases hb : ch.has_data = true
    · rw [if_pos hb] at h
      by_cases hlt : t % U64MOD < ch.last_write % U64MOD
      · rw [if_pos hlt] at h
        simp at h
      · rw [if_neg hlt] at h
        simp only [Option.some.injEq] at h
        subst h
        exact ⟨hsrc, fun hd => by simp [hb] at hd⟩
    · rw [if_neg hb] at h
      simp only [Option.some.injEq] at h
      subst h
      exact ⟨hsrc, fun hd => by simp at hd⟩
  | recordDistribution t v c =>
    simp only [step, Option.some.injEq] at h
    subst h
    unfold Channel.record_distribution
    rw [if_neg (by simp [hsrc])]
    exact ⟨hsrc, hflag⟩
  | recordGauge t v =>
    simp only [step, Option.some.injEq] at h
    subst h
    unfold Channel.record_gauge
    rw [if_neg (by simp [hsrc])]
    exact ⟨hsrc, hflag⟩
  | recordIncrement t c => simp [Op.notIncrement] at hop
  | recordTimeInterval a b =>
    simp only [step, Option.some.injEq] at h
    subst h
    unfold Channel.record_time_interval
    rw [if_neg (by simp [hsrc])]
    exact ⟨hsrc, hflag⟩
  | latch =>
    simp only [step, Option.some.injEq] at h
    subst h
    refine ⟨hsrc, fun hd => ?_⟩
    have hr := hflag (by simpa [Channel.latch] using hd)
    simp [Channel.latch, hr.1]
  | zero now =>
    simp only [step, Option.some.injEq] at h
    subst h
    exact ⟨hsrc, fun _ => by simp [Channel.zero]⟩
  | addOutput o =>
    simp only [step, Option.some.injEq] at h
    subst h
    exact ⟨hsrc, hflag⟩
  | deleteOutput o =>
    simp only [step, Option.some.injEq] at h
    subst h
    exact ⟨hsrc, hflag⟩

/-- Increment-free operation sequences preserve `CounterInv`. -/
theorem run_counterInv :
    ∀ (ops : List Op) (ch ch' : Channel), ops.all Op.notIncrement = true →
      CounterInv ch → run ch ops = some ch' → CounterInv ch' := by
  intro ops
  induction ops with
  | nil =>
    intro ch ch' _ hinv h
    simp only [run, Option.some.injEq] at h
    subst h
    exact hinv
  | cons op ops ih =>
    intro ch ch' hall hinv h
    simp only [List.all_cons, Bool.and_eq_true] at hall
    simp only [run, Option.bind_eq_bind, Option.bind_eq_some] at h
    obtain ⟨ch2, h1, h2⟩ := h
    exact ih ch2 ch' hall.2 (step_counterInv hall.1 hinv h1) h2

/-- C7 counterexample: on a Gauge Channel, a single `record_gauge` call
leaves the has-data flag false while setting the reading to 7 and both
extremum times to 1 — the claimed invariant fails on the code. -/
theorem c7_counterexample :
    run (Channel.new gaugeStat false 0) [Op.recordGauge 1 7]
        = some ((Channel.new gaugeStat false 0).record_gauge 1 7)
      ∧ ((Channel.new gaugeStat false 0).record_gauge 1 7).has_data = false
      ∧ ((Channel.new gaugeStat false 0).record_gauge 1 7).reading = 7
      ∧ ((Channel.new gaugeStat false 0).record_gauge 1 7).max.time = 1
      ∧ ((Channel.new gaugeStat false 0).record_gauge 1 7).min.time = 1 := by
  refine ⟨by decide, by decide, by decide, by decide, by decide⟩

/-- C7 amended: for Channels of kind Counter, under every operation sequence
that contains no `record_increment` call, has-data false implies reading 0
and both extremum trackers unset. -/
theorem c7_amended_invariant (stat : ChannelStatistic) (hh : Bool) (now : ℕ)
    (ops : List Op) (ch' : Channel)
    (hsrc : stat.source = Source.Counter)
    (hops : ops.all Op.notIncrement = true)
    (hrun : run (Channel.new stat hh now) ops = some ch')
    (hdata : ch'.has_data = false) :
    ch'.reading = 0 ∧ ch'.max.time = 0 ∧ ch'.min.time = 0 := by
  have hinv : CounterInv (Channel.new stat hh now) :=
    ⟨by simp [Channel.new, hsrc], fun _ => by simp [Channel.new]⟩
  exact (run_counterInv ops _ ch' hops hinv hrun).2 hdata

/-- C7 amended witness: record then zero on a concrete Counter channel. -/
theorem c7_amended_invariant_witness :
    (((Channel.new counterStat true 0).record_counter 5 3).zero 9).reading = 0
      ∧ (((Channel.new counterStat true 0).record_counter 5 3).zero 9).max.time = 0
      ∧ (((Channel.new counterStat true 0).record_counter 5 3).zero 9).min.time = 0 :=
  c7_amended_invariant counterStat true 0 [Op.recordCounter 5 3, Op.zero 9]
    (((Channel.new counterStat true 0).record_counter 5 3).zero 9)
    rfl (by decide) (by decide) (by decide)

/-- C8 (min-timestamp guard): with the MinPointTime output registered, both
query paths emit the minimum tracker's timestamp exactly when the MAXIMUM
tracker's timestamp is nonzero — the maximum tracker is the
has-ever-been-set guard for the minimum output. -/
theorem c8_min_timestamp_guard (ch : Channel) (h : Output.MinPointTime ∈ ch.outputs) :
    (Reading.mk ch.statistic.name Output.MinPointTime ch.min.time ∈ ch.readings
        ↔ ch.max.time > 0)
  ∧ ((Output.MinPointTime, ch.min.time) ∈ ch.hash_map ↔ ch.max.time > 0) := by
  constructor
  · constructor
    · intro hmem
      unfold Channel.readings at hmem
      rw [List.mem_filterMap] at hmem
      obtain ⟨o, ho, hf⟩ := hmem
      cases o with
      | Reading => simp at hf
      | MaxPointTime =>
        split_ifs at hf
        simp_all
      | MinPointTime =>
        split_ifs at hf with hc
        exact hc
      | Percentile p =>
        cases hp : ch.percentile p with
        | ok v => simp [hp] at hf
        | error e => simp [hp] at hf
    · intro hmax
      unfold Channel.readings
      rw [List.mem_filterMap]
      exact ⟨Output.MinPointTime, h, by simp [hmax]⟩
  · constructor
    · intro hmem
      unfold Channel.hash_map at hmem
      rw [List.mem_filterMap] at hmem
      obtain ⟨o, ho, hf⟩ := hmem
      cases o with
      | Reading => simp at hf
      | MaxPointTime =>
        split_ifs at hf
        simp_all
      | MinPointTime =>
        split_ifs at hf with hc
        exact hc
      | Percentile p =>
        cases hp : ch.percentile p with
        | ok v => simp [hp] at hf
        | error e => simp [hp] at hf
    · intro hmax
      unfold Channel.hash_map
      rw [List.mem_filterMap]
      exact ⟨Output.MinPointTime, h, by simp [hmax]⟩

/-- Concrete channel with an unset max tracker but set min data, for the C8
witness. -/
def c8ch : Channel :=
  { statistic := gaugeStat
    source := Source.Gauge
    reading := 0
    histogram := none
    last_write := 0
    latched := true
    max := ⟨5, 9⟩
    min := ⟨2, 7⟩
    outputs := [Output.MinPointTime]
    has_data := true }

/-- C8 witness: on a concrete channel the min timestamp is emitted and the
guard is the max tracker's time. -/
theorem c8_min_timestamp_guard_witness :
    (Reading.mk c8ch.statistic.name Output.MinPointTime c8ch.min.time ∈ c8ch.readings
        ↔ c8ch.max.time > 0)
      ∧ ((Output.MinPointTime, c8ch.min.time) ∈ c8ch.hash_map ↔ c8ch.max.time > 0) :=
  c8_min_timestamp_guard c8ch (by decide)

/-- C9 (output round-trip): registering the Reading output and recording a
gauge value 7 makes `readings()` contain the tagged Reading with value 7;
after deleting the output no Reading-kind record is produced; and
add/delete of outputs are idempotent on the registered set. -/
theorem c9_output_round_trip (stat : ChannelStatistic) (now t : ℕ)
    (hsrc : stat.source = Source.Gauge) :
    (Reading.mk stat.name Output.Reading 7
        ∈ (((Channel.new stat false now).add_output Output.Reading).record_gauge t 7).readings)
  ∧ (∀ v, Reading.mk stat.name Output.Reading v
        ∉ ((((Channel.new stat false now).add_output Output.Reading).record_gauge t 7).delete_output
            Output.Reading).readings)
  ∧ (∀ ch : Channel, ∀ o : Output, o ∈ ch.outputs → ch.add_output o = ch)
  ∧ (∀ ch : Channel, ∀ o : Output, o ∉ ch.outputs → ch.delete_output o = ch) := by
  refine ⟨?_, ?_, ?_, ?_⟩
  · simp [Channel.new, Channel.add_output, Channel.record_gauge, hsrc, Channel.readings]
  · intro v
    simp [Channel.new, Channel.add_output, Channel.record_gauge, hsrc,
      Channel.delete_output, Channel.readings]
  · intro ch o ho
    unfold Channel.add_output
    rw [if_pos ho]
  · intro ch o ho
    unfold Channel.delete_output
    have hfil : ch.outputs.filter (fun x => x ≠ o) = ch.outputs :=
      List.filter_eq_self.mpr (fun a ha => by
        simp only [ne_eq, decide_not, Bool.not_eq_false', decide_eq_true_eq,
          Bool.not_eq_true', decide_eq_false_iff_not]
        exact fun hao => ho (hao ▸ ha))
    rw [hfil]

/-- C9 witness: the concrete gauge round trip. -/
theorem c9_output_round_trip_witness :
    Reading.mk gaugeStat.name Output.Reading 7
        ∈ (((Channel.new gaugeStat false 0).add_output Output.Reading).record_gauge 4 7).readings
      ∧ Reading.mk gaugeStat.name Output.Reading 7
        ∉ ((((Channel.new gaugeStat false 0).add_output Output.Reading).record_gauge 4 7).delete_output
            Output.Reading).readings := by
  have h := c9_output_round_trip gaugeStat 0 4 rfl
  exact ⟨h.1, h.2.1 7⟩

end Metrics
